import Mathlib

/-!
Verification of the job-submission/poll/retrieve client protocol and the
serverless request handler of the TuckerTucker/tkr-runpod-serverless-DIA
repository.

The client side embeds `DiaTTSClient.generate_speech` from
`src/inference/client/inference.py`: payload construction, the single
HTTP POST to `/run`, and the status poll loop, as a function from an
abstract network environment to a result together with a trace of
observable effects (POST, GET, sleep, file creation/truncation, file
write).  The save-to-file step is fallible, as in the program: `open`
may raise before touching the file, and `f.write` may raise after
`open` has created/truncated it, both caught by the generic
`except Exception`.  Wall-clock time is
modelled discretely: each poll iteration advances time by
`polling_interval` (the `time.sleep` at the end of the loop body);
request latencies are idealised to zero, matching the specification's
accounting `elapsed_time <= timeout + polling_interval`.  The unbounded
`while True` loop is embedded with explicit fuel and a `diverge` marker;
termination is the theorem that with enough fuel the marker is never
returned.

The handler side embeds `handler` and `load_model` from
`src/serverless/handler.py` as explicit state passing over the
process-wide model singleton.  Loaded models are identified by fresh
tags drawn from a counter, so that "reloaded" is expressible.
Python exceptions are modelled with `Except`: a propagated exception is
`Except.error`, a caught one is turned into the structured response the
code returns.  Filesystem/logging side effects of the admin
`set_cache_dir` / `debug_volumes` branches are abstracted into the
environment (no claim depends on them).

Base64 is implemented from the two call sites
(`base64.b64encode` in the client, `base64.b64decode` in the handler)
on canonical inputs: `b64DecodeChars` follows the strict reading where
padding occurs only in the final quantum, which agrees with Python's
decoder on every output of the encoder.
-/

deriving instance DecidableEq for Except

/-! ### Base64 (client `base64.b64encode`, handler `base64.b64decode`) -/

def b64Alphabet : List Char :=
  "ABCDEFGHIJKLMNOPQRSTUVWXYZabcdefghijklmnopqrstuvwxyz0123456789+/".toList

def b64Char (n : ℕ) : Char :=
  b64Alphabet.getD n 'A'

def b64Index (c : Char) : Option ℕ :=
  b64Alphabet.findIdx? (fun d => d = c)

/-- Encoding of a byte sequence, three bytes to four characters, as
`base64.b64encode` produces it (with `=` padding). -/
def b64EncodeBytes : List ℕ → List Char
  | [] => []
  | [a] => [b64Char (a / 4), b64Char (a % 4 * 16), '=', '=']
  | [a, b] => [b64Char (a / 4), b64Char (a % 4 * 16 + b / 16), b64Char (b % 16 * 4), '=']
  | a :: b :: c :: rest =>
      b64Char (a / 4) :: b64Char (a % 4 * 16 + b / 16) ::
      b64Char (b % 16 * 4 + c / 64) :: b64Char (c % 64) :: b64EncodeBytes rest

/-- Decoding of a base64 character sequence, four characters to up to
three bytes, as `base64.b64decode` behaves on canonical (encoder-produced)
input; malformed input yields `none` (the Python decoder raises). -/
def b64DecodeChars : List Char → Option (List ℕ)
  | [] => some []
  | w :: x :: y :: z :: rest =>
      match b64Index w, b64Index x with
      | some a, some b =>
          if y = '=' then
            if z = '=' ∧ rest = [] then some [a * 4 + b / 16] else none
          else
            match b64Index y with
            | some c =>
                if z = '=' then
                  if rest = [] then some [a * 4 + b / 16, b % 16 * 16 + c / 4] else none
                else
                  match b64Index z with
                  | some d =>
                      match b64DecodeChars rest with
                      | some tl =>
                          some ((a * 4 + b / 16) :: (b % 16 * 16 + c / 4) ::
                                (c % 4 * 64 + d) :: tl)
                      | none => none
                  | none => none
            | none => none
      | _, _ => none
  | _ => none

def b64EncodeStr (bs : List ℕ) : String :=
  String.mk (b64EncodeBytes bs)

def b64DecodeStr (s : String) : Option (List ℕ) :=
  b64DecodeChars s.toList

theorem b64Index_b64Char : ∀ n, n < 64 → b64Index (b64Char n) = some n := by
  decide

theorem b64Char_ne_pad : ∀ n, n < 64 → ¬ (b64Char n = '=') := by
  decide

theorem b64_roundtrip_chars (bs : List ℕ) (h : ∀ x ∈ bs, x < 256) :
    b64DecodeChars (b64EncodeBytes bs) = some bs := by
  induction bs using b64EncodeBytes.induct with
  | case1 =>
      rfl
  | case2 a =>
      have ha : a < 256 := h a (by simp)
      simp [b64EncodeBytes, b64DecodeChars,
        b64Index_b64Char (a / 4) (by omega),
        b64Index_b64Char (a % 4 * 16) (by omega)]
      omega
  | case3 a b =>
      have ha : a < 256 := h a (by simp)
      have hb : b < 256 := h b (by simp)
      simp [b64EncodeBytes, b64DecodeChars,
        b64Index_b64Char (a / 4) (by omega),
        b64Index_b64Char (a % 4 * 16 + b / 16) (by omega),
        b64Index_b64Char (b % 16 * 4) (by omega),
        b64Char_ne_pad (b % 16 * 4) (by omega)]
      omega
  | case4 a b c rest ih =>
      have ha : a < 256 := h a (by simp)
      have hb : b < 256 := h b (by simp)
      have hc : c < 256 := h c (by simp)
      have hrest : ∀ x ∈ rest, x < 256 := fun x hx => h x (by simp [hx])
      simp [b64EncodeBytes, b64DecodeChars,
        b64Index_b64Char (a / 4) (by omega),
        b64Index_b64Char (a % 4 * 16 + b / 16) (by omega),
        b64Index_b64Char (b % 16 * 4 + c / 64) (by omega),
        b64Index_b64Char (c % 64) (by omega),
        b64Char_ne_pad (b % 16 * 4 + c / 64) (by omega),
        b64Char_ne_pad (c % 64) (by omega),
        ih hrest]
      omega

/-! ### Client: `DiaTTSClient.generate_speech` (src/inference/client/inference.py)

The network is abstracted into `ClientEnv`: the parsed JSON of the one
submit POST, and the parsed JSON of the n-th status GET.  An
`Except.error e` response models a `requests.exceptions.RequestException`
raised by that request.  `Effect` records the observable actions the
client performs, in order.  `Effect.cancelJob` is the cancellation
request the client never issues; it is included so that its absence is
a statement about the code rather than about the vocabulary.
`openOutcome` / `writeOutcome` are the outcomes of `open(save_path,
"wb")` and `f.write` on the success path: a successful `open`
creates/truncates the output file (`Effect.openTrunc`) before `f.write`
runs. -/

def strFalsy (s : Option String) : Bool :=
  match s with
  | none => true
  | some s => s = ""

/-- Parsed JSON body of the submit response; `id` is `result.get("id")`. -/
structure SubmitResp where
  id : Option String
  deriving DecidableEq

/-- Parsed `output` object of a status response: `error` / `audio` keys. -/
structure JobOutput where
  error : Option String
  audio : Option String
  deriving DecidableEq

/-- Parsed JSON body of a status response. -/
structure StatusResp where
  status : Option String
  output : Option JobOutput
  error : Option String
  deriving DecidableEq

structure ClientEnv where
  submit : Except String SubmitResp
  statusAt : ℕ → Except String StatusResp
  openOutcome : Except String Unit
  writeOutcome : Except String Unit

/-- The JSON payload the client builds for the POST to `/run`.
Optional keys (`seed`, `force_refresh`, `audio_prompt`) are represented
by `Option`/`Bool` fields recording their presence. -/
structure Payload where
  text : String
  temperature : ℚ
  topP : ℚ
  seed : Option Int
  forceRefresh : Bool
  audioPrompt : Option String
  deriving DecidableEq

inductive Effect where
  | postRun (payload : Payload)
  | getStatus (jobId : String)
  | sleep (secs : ℕ)
  | openTrunc (path : String)
  | writeFile (path : String) (content : List ℕ)
  | cancelJob (jobId : String)
  deriving DecidableEq

inductive GSOutcome where
  | success (audio : List ℕ)
  | failure (msg : String)
  | diverge
  deriving DecidableEq

/-- The save-to-file step of the success branch
(`with open(save_path, "wb") as f: f.write(audio_bytes)`), still inside
the outer `except Exception`.  `open` may raise before touching the
file; once it succeeds the file is created/truncated
(`Effect.openTrunc`), and `f.write` may then raise, leaving the file
modified while the client returns a failure pair. -/
def saveStep (env : ClientEnv) (savePath : Option String) (bytes : List ℕ) :
    GSOutcome × List Effect :=
  match savePath with
  | none => (.success bytes, [])
  | some path =>
      match env.openOutcome with
      | .error e => (.failure ("Unexpected error: " ++ e), [])
      | .ok _ =>
          match env.writeOutcome with
          | .error e =>
              (.failure ("Unexpected error: " ++ e), [Effect.openTrunc path])
          | .ok _ =>
              (.success bytes,
               [Effect.openTrunc path, Effect.writeFile path bytes])

/-- One iteration body of the poll loop after the timeout check:
issue the GET, inspect the status.  `some (r, effs)` means the loop
returns `r` having performed `effs`; `none` means a non-terminal status
was seen (the caller then sleeps and retries). -/
def pollStep (env : ClientEnv) (jid : String) (savePath : Option String) (n : ℕ) :
    Option (GSOutcome × List Effect) :=
  match env.statusAt n with
  | .error e => some (.failure ("Request error: " ++ e), [Effect.getStatus jid])
  | .ok sd =>
      if sd.status = some "COMPLETED" then
        let out := sd.output.getD { error := none, audio := none }
        match out.error with
        | some err => some (.failure ("Job failed: " ++ err), [Effect.getStatus jid])
        | none =>
            if strFalsy out.audio then
              some (.failure "No audio data in response", [Effect.getStatus jid])
            else
              match b64DecodeStr (out.audio.getD "") with
              | none =>
                  some (.failure "Unexpected error: invalid base64",
                    [Effect.getStatus jid])
              | some bytes =>
                  some ((saveStep env savePath bytes).fst,
                    Effect.getStatus jid :: (saveStep env savePath bytes).snd)
      else if sd.status = some "FAILED" then
        some (.failure ("Job failed: " ++ sd.error.getD "Unknown error"),
          [Effect.getStatus jid])
      else if sd.status = some "CANCELLED" then
        some (.failure ("Job cancelled: " ++ sd.error.getD "Unknown error"),
          [Effect.getStatus jid])
      else
        none

/-- The `while True` poll loop, with the wall clock modelled as
`n * pollingInterval` after `n` sleeps and the unbounded loop embedded
with fuel (`GSOutcome.diverge` marks exhausted fuel and is proved
unreachable for sufficient fuel). -/
def pollLoop (env : ClientEnv) (jid : String) (savePath : Option String)
    (pollingInterval timeout : ℕ) : ℕ → ℕ → GSOutcome × List Effect
  | fuel, n =>
      if n * pollingInterval > timeout then
        (.failure ("Job timed out after " ++ toString timeout ++ " seconds"), [])
      else
        match fuel with
        | 0 => (.diverge, [])
        | fuel + 1 =>
            match pollStep env jid savePath n with
            | some (r, effs) => (r, effs)
            | none =>
                let k := pollLoop env jid savePath pollingInterval timeout fuel (n + 1)
                (k.fst, Effect.getStatus jid :: Effect.sleep pollingInterval :: k.snd)

/-- Message of the immediate failure when the submit response carries no
job id (`f"Failed to submit job: {result}"`). -/
def submitFailMsg (r : SubmitResp) : String :=
  "Failed to submit job: " ++ (match r.id with | none => "None" | some s => s)

/-- `DiaTTSClient.generate_speech`.  `audioPrompt` models the
`audio_prompt` argument together with the outcome of reading the file:
`none` when absent/falsy, `some (.error e)` when `open`/`read` raises,
`some (.ok bytes)` when the file holds `bytes`. -/
def gsPayload (text : String) (temperature topP : ℚ) (seed : Option Int)
    (forceRefresh : Bool) (audioPrompt : Option (Except String (List ℕ))) : Payload :=
  { text := text
    temperature := temperature
    topP := topP
    seed := seed
    forceRefresh := forceRefresh
    audioPrompt :=
      match audioPrompt with
      | some (.ok bs) => some (b64EncodeStr bs)
      | _ => none }

def generate_speech (text : String) (temperature topP : ℚ) (seed : Option Int)
    (audioPrompt : Option (Except String (List ℕ))) (savePath : Option String)
    (pollingInterval timeout : ℕ) (forceRefresh : Bool)
    (env : ClientEnv) (fuel : ℕ) : GSOutcome × List Effect :=
  match audioPrompt with
  | some (.error e) => (.failure ("Error reading audio prompt file: " ++ e), [])
  | _ =>
      let payload : Payload := gsPayload text temperature topP seed forceRefresh audioPrompt
      match env.submit with
      | .error e => (.failure ("Request error: " ++ e), [Effect.postRun payload])
      | .ok resp =>
          if strFalsy resp.id then
            (.failure (submitFailMsg resp), [Effect.postRun payload])
          else
            let r := pollLoop env (resp.id.getD "") savePath pollingInterval timeout fuel 0
            (r.fst, Effect.postRun payload :: r.snd)

/-- Total seconds slept along a trace (the client's only time consumption
besides the idealised-instant requests). -/
def sleepSum : List Effect → ℕ
  | [] => 0
  | Effect.sleep s :: tl => s + sleepSum tl
  | _ :: tl => sleepSum tl

/-- Number of status GET requests in a trace. -/
def countGet : List Effect → ℕ
  | [] => 0
  | Effect.getStatus _ :: tl => 1 + countGet tl
  | _ :: tl => countGet tl

/-- Number of POST `/run` requests in a trace. -/
def countPost : List Effect → ℕ
  | [] => 0
  | Effect.postRun _ :: tl => 1 + countPost tl
  | _ :: tl => countPost tl

/-- A status response that keeps the loop going: an answer arrived
(no transport error) and its `status` field is none of the three
terminal values. -/
def respNonTerminal (r : Except String StatusResp) : Bool :=
  match r with
  | .error _ => false
  | .ok sd =>
      !(sd.status == some "COMPLETED") && !(sd.status == some "FAILED") &&
        !(sd.status == some "CANCELLED")

/-! ### Client lemmas -/

/-- The save step returns either the success with the decoded bytes or
an `Unexpected error` failure from the file system. -/
theorem saveStep_fst (env : ClientEnv) (sp : Option String) (bytes : List ℕ) :
    (saveStep env sp bytes).fst = GSOutcome.success bytes ∨
      ∃ e, (saveStep env sp bytes).fst =
        GSOutcome.failure ("Unexpected error: " ++ e) := by
  unfold saveStep
  cases sp with
  | none => exact Or.inl rfl
  | some path =>
      cases env.openOutcome with
      | error e => exact Or.inr ⟨e, rfl⟩
      | ok u =>
          cases env.writeOutcome with
          | error e => exact Or.inr ⟨e, rfl⟩
          | ok u' => exact Or.inl rfl

/-- The save step performs no network request, no sleep and no
cancellation. -/
theorem saveStep_counts (env : ClientEnv) (sp : Option String) (bytes : List ℕ) :
    countGet (saveStep env sp bytes).snd = 0 ∧
      sleepSum (saveStep env sp bytes).snd = 0 ∧
      countPost (saveStep env sp bytes).snd = 0 ∧
      ∀ j, Effect.cancelJob j ∉ (saveStep env sp bytes).snd := by
  unfold saveStep
  cases sp with
  | none => exact ⟨rfl, rfl, rfl, by simp⟩
  | some path =>
      cases env.openOutcome with
      | error e => exact ⟨rfl, rfl, rfl, by simp⟩
      | ok u =>
          cases env.writeOutcome with
          | error e => exact ⟨rfl, rfl, rfl, by simp⟩
          | ok u' => exact ⟨rfl, rfl, rfl, by simp⟩

/-- A completed write carries exactly the decoded bytes of the success
result. -/
theorem saveStep_write (env : ClientEnv) (sp : Option String) (bytes : List ℕ)
    (pth : String) (bs : List ℕ)
    (h : Effect.writeFile pth bs ∈ (saveStep env sp bytes).snd) :
    (saveStep env sp bytes).fst = GSOutcome.success bs := by
  unfold saveStep at h ⊢
  cases sp with
  | none => simp at h
  | some path =>
      cases ho : env.openOutcome with
      | error e => rw [ho] at h; simp at h
      | ok u =>
          rw [ho] at h
          cases hw : env.writeOutcome with
          | error e => rw [hw] at h; simp at h
          | ok u' =>
              rw [hw] at h
              simp at h
              rw [h.2]

/-- The file is created/truncated only when `open` succeeded, and then
either the write completes (success) or `f.write` raised and the step
fails with the corresponding `Unexpected error`. -/
theorem saveStep_openTrunc (env : ClientEnv) (sp : Option String) (bytes : List ℕ)
    (pth : String)
    (h : Effect.openTrunc pth ∈ (saveStep env sp bytes).snd) :
    (∃ bs', (saveStep env sp bytes).fst = GSOutcome.success bs') ∨
      ∃ e, env.writeOutcome = Except.error e ∧
        (saveStep env sp bytes).fst =
          GSOutcome.failure ("Unexpected error: " ++ e) := by
  unfold saveStep at h ⊢
  cases sp with
  | none => simp at h
  | some path =>
      cases ho : env.openOutcome with
      | error e => rw [ho] at h; simp at h
      | ok u =>
          rw [ho] at h
          cases hw : env.writeOutcome with
          | error e => exact Or.inr ⟨e, rfl, rfl⟩
          | ok u' => exact Or.inl ⟨bytes, rfl⟩

/-- Facts about any returning poll iteration: it never yields the fuel
marker, performs exactly one GET, no sleep, no POST, never a cancel,
writes a file only when succeeding with exactly the written bytes, and
creates/truncates the output file only on success or when `f.write`
itself raised after a successful `open`. -/
theorem pollStep_shape (env : ClientEnv) (jid : String) (sp : Option String)
    (n : ℕ) (r : GSOutcome) (effs : List Effect)
    (h : pollStep env jid sp n = some (r, effs)) :
    r ≠ GSOutcome.diverge ∧ countGet effs = 1 ∧ sleepSum effs = 0 ∧
      countPost effs = 0 ∧ (∀ j, Effect.cancelJob j ∉ effs) ∧
      (∀ pth bs, Effect.writeFile pth bs ∈ effs → r = GSOutcome.success bs) ∧
      (∀ pth, Effect.openTrunc pth ∈ effs →
        (∃ bs', r = GSOutcome.success bs') ∨
        ∃ e, env.writeOutcome = Except.error e ∧
          r = GSOutcome.failure ("Unexpected error: " ++ e)) := by
  unfold pollStep at h
  dsimp only at h
  repeat' split at h
  any_goals exact Option.noConfusion h
  all_goals
    injection h with h'
    injection h' with h1 h2
    subst h1
    subst h2
  all_goals
    first
    | exact ⟨by simp, rfl, rfl, rfl, by simp,
        fun pth bs hmem => by simp at hmem,
        fun pth hmem => by simp at hmem⟩
    | · rename_i bytes hbeq
        have hc := saveStep_counts env sp bytes
        refine ⟨?_, ?_, ?_, ?_, ?_, ?_, ?_⟩
        · rcases saveStep_fst env sp bytes with hs | ⟨e, hs⟩ <;> rw [hs] <;> simp
        · simp only [countGet]
          omega
        · simp only [sleepSum]
          omega
        · simp only [countPost]
          omega
        · intro j
          simp only [List.mem_cons]
          push_neg
          exact ⟨by simp, hc.2.2.2 j⟩
        · intro pth bs hmem
          simp only [List.mem_cons] at hmem
          rcases hmem with h1 | h2
          · cases h1
          · exact saveStep_write env sp bytes pth bs h2
        · intro pth hmem
          simp only [List.mem_cons] at hmem
          rcases hmem with h1 | h2
          · cases h1
          · exact saveStep_openTrunc env sp bytes pth h2

/-- A non-terminal status response makes the iteration fall through to
the sleep. -/
theorem pollStep_none_of_nonTerminal (env : ClientEnv) (jid : String)
    (sp : Option String) (n : ℕ) (h : respNonTerminal (env.statusAt n) = true) :
    pollStep env jid sp n = none := by
  unfold respNonTerminal at h
  unfold pollStep
  cases hs : env.statusAt n with
  | error e => rw [hs] at h; simp at h
  | ok sd =>
      rw [hs] at h
      simp only [Bool.and_eq_true, Bool.not_eq_true', beq_eq_false_iff_ne] at h
      simp [h.1.1, h.1.2, h.2]

/-- A transport error on the n-th status GET returns the request failure
from that iteration. -/
theorem pollStep_request_error (env : ClientEnv) (jid : String)
    (sp : Option String) (n : ℕ) (e : String) (h : env.statusAt n = .error e) :
    pollStep env jid sp n =
      some (.failure ("Request error: " ++ e), [Effect.getStatus jid]) := by
  unfold pollStep
  rw [h]

/-- With fuel at least `timeout + 2` minus the iterations already done,
the embedded `while True` loop never exhausts its fuel: either a
terminal response returns, or the timeout check fires. -/
theorem pollLoop_ne_diverge (env : ClientEnv) (jid : String) (sp : Option String)
    (p t : ℕ) (hp : 0 < p) :
    ∀ fuel n, t + 2 ≤ fuel + n →
      (pollLoop env jid sp p t fuel n).fst ≠ GSOutcome.diverge := by
  intro fuel
  induction fuel with
  | zero =>
      intro n hn
      rw [pollLoop]
      have hnp : n ≤ n * p := Nat.le_mul_of_pos_right n hp
      rw [if_pos (by omega)]
      simp
  | succ fuel ih =>
      intro n hn
      rw [pollLoop]
      by_cases hg : n * p > t
      · rw [if_pos hg]; simp
      · rw [if_neg hg]
        cases hstep : pollStep env jid sp n with
        | some pr =>
            have := pollStep_shape env jid sp n pr.fst pr.snd (by rw [hstep])
            simp [this.1]
        | none =>
            simp only
            exact ih (n + 1) (by omega)

/-- When every status response is non-terminal, the loop exits through
the timeout check; the time slept (and the polls issued, each costing
one further `polling_interval` of waiting) stay within
`timeout + polling_interval` of the submission instant. -/
theorem pollLoop_timeout (env : ClientEnv) (jid : String) (sp : Option String)
    (p t : ℕ) (hp : 0 < p)
    (hnt : ∀ m, respNonTerminal (env.statusAt m) = true) :
    ∀ fuel n, t + 2 ≤ fuel + n → n * p ≤ t + p →
      (pollLoop env jid sp p t fuel n).fst =
        GSOutcome.failure ("Job timed out after " ++ toString t ++ " seconds") ∧
      sleepSum (pollLoop env jid sp p t fuel n).snd + n * p ≤ t + p ∧
      countGet (pollLoop env jid sp p t fuel n).snd * p + n * p ≤ t + p := by
  intro fuel
  induction fuel with
  | zero =>
      intro n hn hb
      rw [pollLoop]
      have hnp : n ≤ n * p := Nat.le_mul_of_pos_right n hp
      rw [if_pos (by omega)]
      refine ⟨rfl, ?_, ?_⟩ <;> simp [sleepSum, countGet] <;> omega
  | succ fuel ih =>
      intro n hn hb
      rw [pollLoop]
      by_cases hg : n * p > t
      · rw [if_pos hg]
        refine ⟨rfl, ?_, ?_⟩ <;> simp [sleepSum, countGet] <;> omega
      · rw [if_neg hg]
        rw [pollStep_none_of_nonTerminal env jid sp n (hnt n)]
        simp only
        have hrec := ih (n + 1) (by omega) (by
          have : (n + 1) * p = n * p + p := by ring
          omega)
        rw [Nat.succ_mul] at hrec
        refine ⟨hrec.1, ?_, ?_⟩
        · simp only [sleepSum]
          omega
        · simp only [countGet, Nat.add_mul, Nat.one_mul]
          omega

/-- The loop never issues a cancellation request and never POSTs. -/
theorem pollLoop_no_cancel_no_post (env : ClientEnv) (jid : String)
    (sp : Option String) (p t : ℕ) :
    ∀ fuel n,
      (∀ j, Effect.cancelJob j ∉ (pollLoop env jid sp p t fuel n).snd) ∧
      countPost (pollLoop env jid sp p t fuel n).snd = 0 := by
  intro fuel
  induction fuel with
  | zero =>
      intro n
      rw [pollLoop]
      by_cases hg : n * p > t
      · rw [if_pos hg]; exact ⟨by simp, rfl⟩
      · rw [if_neg hg]; exact ⟨by simp, rfl⟩
  | succ fuel ih =>
      intro n
      rw [pollLoop]
      by_cases hg : n * p > t
      · rw [if_pos hg]; exact ⟨by simp, rfl⟩
      · rw [if_neg hg]
        cases hstep : pollStep env jid sp n with
        | some pr =>
            have hsh := pollStep_shape env jid sp n pr.fst pr.snd (by rw [hstep])
            exact ⟨hsh.2.2.2.2.1, hsh.2.2.2.1⟩
        | none =>
            simp only
            refine ⟨fun j => ?_, ?_⟩
            · simp only [List.mem_cons]
              push_neg
              exact ⟨by simp, by simp, (ih (n + 1)).1 j⟩
            · simp only [countPost]
              exact (ih (n + 1)).2

/-- A file write in the loop's trace happens only on the success return,
with exactly the decoded audio bytes. -/
theorem pollLoop_write_success (env : ClientEnv) (jid : String)
    (sp : Option String) (p t : ℕ) :
    ∀ fuel n pth bs,
      Effect.writeFile pth bs ∈ (pollLoop env jid sp p t fuel n).snd →
      (pollLoop env jid sp p t fuel n).fst = GSOutcome.success bs := by
  intro fuel
  induction fuel with
  | zero =>
      intro n pth bs hmem
      rw [pollLoop] at hmem ⊢
      by_cases hg : n * p > t
      · rw [if_pos hg] at hmem; simp at hmem
      · rw [if_neg hg] at hmem; simp at hmem
  | succ fuel ih =>
      intro n pth bs hmem
      rw [pollLoop] at hmem ⊢
      by_cases hg : n * p > t
      · rw [if_pos hg] at hmem; simp at hmem
      · rw [if_neg hg] at hmem ⊢
        cases hstep : pollStep env jid sp n with
        | some pr =>
            obtain ⟨r, effs⟩ := pr
            rw [hstep] at hmem
            dsimp only at hmem ⊢
            have hsh := pollStep_shape env jid sp n r effs hstep
            exact hsh.2.2.2.2.2.1 pth bs hmem
        | none =>
            rw [hstep] at hmem
            dsimp only at hmem ⊢
            simp only [List.mem_cons] at hmem
            rcases hmem with h1 | h2 | h3
            · cases h1
            · cases h2
            · exact ih (n + 1) pth bs h3

/-- A file creation/truncation in the loop's trace happens only when the
success branch reached the save step and `open` succeeded: then either
the run succeeds, or `f.write` raised and the run fails with the
corresponding `Unexpected error` — the one failure that leaves the
output file modified. -/
theorem pollLoop_openTrunc (env : ClientEnv) (jid : String)
    (sp : Option String) (p t : ℕ) :
    ∀ fuel n pth,
      Effect.openTrunc pth ∈ (pollLoop env jid sp p t fuel n).snd →
      (∃ bs', (pollLoop env jid sp p t fuel n).fst = GSOutcome.success bs') ∨
      ∃ e, env.writeOutcome = Except.error e ∧
        (pollLoop env jid sp p t fuel n).fst =
          GSOutcome.failure ("Unexpected error: " ++ e) := by
  intro fuel
  induction fuel with
  | zero =>
      intro n pth hmem
      rw [pollLoop] at hmem ⊢
      by_cases hg : n * p > t
      · rw [if_pos hg] at hmem; simp at hmem
      · rw [if_neg hg] at hmem; simp at hmem
  | succ fuel ih =>
      intro n pth hmem
      rw [pollLoop] at hmem ⊢
      by_cases hg : n * p > t
      · rw [if_pos hg] at hmem; simp at hmem
      · rw [if_neg hg] at hmem ⊢
        cases hstep : pollStep env jid sp n with
        | some pr =>
            obtain ⟨r, effs⟩ := pr
            rw [hstep] at hmem
            dsimp only at hmem ⊢
            have hsh := pollStep_shape env jid sp n r effs hstep
            exact hsh.2.2.2.2.2.2 pth hmem
        | none =>
            rw [hstep] at hmem
            dsimp only at hmem ⊢
            simp only [List.mem_cons] at hmem
            rcases hmem with h1 | h2 | h3
            · cases h1
            · cases h2
            · exact ih (n + 1) pth h3

/-- A transport error on the k-th poll (all earlier polls non-terminal,
timeout not yet elapsed) aborts the loop with the request failure after
exactly k+1 GETs: the failing request is not retried. -/
theorem pollLoop_abort_on_request_error (env : ClientEnv) (jid : String)
    (sp : Option String) (p t : ℕ) (e : String) :
    ∀ k fuel n,
      (∀ m, m < k → respNonTerminal (env.statusAt (n + m)) = true) →
      env.statusAt (n + k) = .error e → (n + k) * p ≤ t → k < fuel →
      (pollLoop env jid sp p t fuel n).fst = .failure ("Request error: " ++ e) ∧
      countGet (pollLoop env jid sp p t fuel n).snd = k + 1 := by
  intro k
  induction k with
  | zero =>
      intro fuel n hpre herr hbound hfuel
      rw [Nat.add_zero] at herr hbound
      match fuel, hfuel with
      | fuel + 1, _ =>
        rw [pollLoop]
        rw [if_neg (by omega)]
        rw [pollStep_request_error env jid sp n e herr]
        exact ⟨rfl, rfl⟩
  | succ k ih =>
      intro fuel n hpre herr hbound hfuel
      match fuel, hfuel with
      | fuel + 1, _ =>
        rw [pollLoop]
        have hmono : n * p ≤ (n + (k + 1)) * p := Nat.mul_le_mul_right p (by omega)
        rw [if_neg (by omega)]
        rw [pollStep_none_of_nonTerminal env jid sp n
          (by simpa using hpre 0 (by omega))]
        simp only
        have hrec := ih fuel (n + 1)
          (fun m hm => by
            have := hpre (m + 1) (by omega)
            simpa [Nat.add_assoc, Nat.add_comm 1 m] using this)
          (by
            have : n + 1 + k = n + (k + 1) := by omega
            rw [this]; exact herr)
          (by
            have : n + 1 + k = n + (k + 1) := by omega
            rw [this]; exact hbound)
          (by omega)
        refine ⟨hrec.1, ?_⟩
        simp only [countGet]
        omega

/-- Unfolding of `generate_speech` on a run that reaches the poll loop:
readable audio prompt, submit answered with a truthy job id. -/
theorem generate_speech_run (text : String) (temp topP : ℚ) (seed : Option Int)
    (ap : Option (Except String (List ℕ))) (sp : Option String)
    (p t : ℕ) (fr : Bool) (env : ClientEnv) (fuel : ℕ) (jid : String)
    (hap : ∀ e, ap ≠ some (Except.error e))
    (hsub : env.submit = Except.ok ⟨some jid⟩) (hjid : jid ≠ "") :
    generate_speech text temp topP seed ap sp p t fr env fuel =
      ((pollLoop env jid sp p t fuel 0).fst,
        Effect.postRun (gsPayload text temp topP seed fr ap) ::
          (pollLoop env jid sp p t fuel 0).snd) := by
  match ap, hap with
  | none, _ =>
      unfold generate_speech
      rw [hsub]
      simp [strFalsy, hjid]
  | some (.ok bs), _ =>
      unfold generate_speech
      rw [hsub]
      simp [strFalsy, hjid]
  | some (.error e), hap =>
      exact absurd rfl (hap e)

/-! ### Claim theorems: client -/

/-- Claim C1: for every status-response sequence, the poll loop of
`generate_speech` terminates (the fuel marker `diverge` is unreachable
once the fuel covers the timeout window, so in particular it terminates
when a terminal status eventually arrives); and when the status stays
non-terminal forever it returns the timeout failure having slept a
total of at most `timeout + polling_interval` seconds. -/
theorem generate_speech_poll_terminates_and_timeout_bound
    (text : String) (temp topP : ℚ) (seed : Option Int)
    (ap : Option (Except String (List ℕ))) (sp : Option String)
    (p t : ℕ) (fr : Bool) (env : ClientEnv) (fuel : ℕ) (jid : String)
    (hp : 0 < p) (hfuel : t + 2 ≤ fuel)
    (hap : ∀ e, ap ≠ some (Except.error e))
    (hsub : env.submit = Except.ok ⟨some jid⟩) (hjid : jid ≠ "") :
    (generate_speech text temp topP seed ap sp p t fr env fuel).fst ≠
      GSOutcome.diverge ∧
    ((∀ m, respNonTerminal (env.statusAt m) = true) →
      (generate_speech text temp topP seed ap sp p t fr env fuel).fst =
        GSOutcome.failure ("Job timed out after " ++ toString t ++ " seconds") ∧
      sleepSum (generate_speech text temp topP seed ap sp p t fr env fuel).snd ≤
        t + p) := by
  rw [generate_speech_run text temp topP seed ap sp p t fr env fuel jid hap hsub hjid]
  constructor
  · exact pollLoop_ne_diverge env jid sp p t hp fuel 0 (by omega)
  · intro hnt
    have h := pollLoop_timeout env jid sp p t hp hnt fuel 0 (by omega) (by omega)
    refine ⟨h.1, ?_⟩
    simp only [sleepSum]
    omega

/-- Claim C3: a submit response without a job id (absent or empty, the
Python falsy check) makes `generate_speech` return the submission
failure at once; the whole trace is the single POST — no status GET, no
sleep, no further effect. -/
theorem generate_speech_no_job_id_fails_without_polling
    (text : String) (temp topP : ℚ) (seed : Option Int)
    (ap : Option (Except String (List ℕ))) (sp : Option String)
    (p t : ℕ) (fr : Bool) (env : ClientEnv) (fuel : ℕ) (resp : SubmitResp)
    (hap : ∀ e, ap ≠ some (Except.error e))
    (hsub : env.submit = Except.ok resp) (hid : strFalsy resp.id = true) :
    ∃ detail,
      generate_speech text temp topP seed ap sp p t fr env fuel =
        (GSOutcome.failure ("Failed to submit job: " ++ detail),
         [Effect.postRun (gsPayload text temp topP seed fr ap)]) := by
  refine ⟨match resp.id with | none => "None" | some s => s, ?_⟩
  match ap, hap with
  | none, _ =>
      unfold generate_speech
      rw [hsub]
      dsimp only
      rw [if_pos hid]
      rfl
  | some (.ok bs), _ =>
      unfold generate_speech
      rw [hsub]
      dsimp only
      rw [if_pos hid]
      rfl
  | some (.error e), hap =>
      exact absurd rfl (hap e)

/-- Claim C4: `generate_speech` never issues a cancellation request, and
on a run where the timeout elapses while the job is still non-terminal
it returns the timeout failure having issued only status GETs from
before the timeout check fired (each GET is followed by a full
`polling_interval` sleep, so `countGet * p ≤ t + p`); no HTTP request
follows the firing of the check. -/
theorem generate_speech_timeout_no_cancellation
    (text : String) (temp topP : ℚ) (seed : Option Int)
    (ap : Option (Except String (List ℕ))) (sp : Option String)
    (p t : ℕ) (fr : Bool) (env : ClientEnv) (fuel : ℕ) (jid : String)
    (hp : 0 < p) (hfuel : t + 2 ≤ fuel)
    (hap : ∀ e, ap ≠ some (Except.error e))
    (hsub : env.submit = Except.ok ⟨some jid⟩) (hjid : jid ≠ "") :
    (∀ j, Effect.cancelJob j ∉
      (generate_speech text temp topP seed ap sp p t fr env fuel).snd) ∧
    ((∀ m, respNonTerminal (env.statusAt m) = true) →
      (generate_speech text temp topP seed ap sp p t fr env fuel).fst =
        GSOutcome.failure ("Job timed out after " ++ toString t ++ " seconds") ∧
      countGet (generate_speech text temp topP seed ap sp p t fr env fuel).snd * p ≤
        t + p) := by
  rw [generate_speech_run text temp topP seed ap sp p t fr env fuel jid hap hsub hjid]
  constructor
  · intro j
    simp only [List.mem_cons]
    push_neg
    exact ⟨by simp, (pollLoop_no_cancel_no_post env jid sp p t fuel 0).1 j⟩
  · intro hnt
    have h := pollLoop_timeout env jid sp p t hp hnt fuel 0 (by omega) (by omega)
    refine ⟨h.1, ?_⟩
    simp only [countGet]
    omega

/-- Claim C8: a single request exception — at submission or on any
polling iteration — aborts the whole operation with the request
failure; no request is retried (one POST in total, and exactly one GET
per poll iteration up to and including the failing one). -/
theorem generate_speech_request_exception_aborts
    (text : String) (temp topP : ℚ) (seed : Option Int)
    (ap : Option (Except String (List ℕ))) (sp : Option String)
    (p t : ℕ) (fr : Bool) (env : ClientEnv) (fuel : ℕ)
    (hp : 0 < p) (hfuel : t + 2 ≤ fuel)
    (hap : ∀ e, ap ≠ some (Except.error e)) :
    (∀ e, env.submit = Except.error e →
      generate_speech text temp topP seed ap sp p t fr env fuel =
        (GSOutcome.failure ("Request error: " ++ e),
         [Effect.postRun (gsPayload text temp topP seed fr ap)])) ∧
    (∀ jid e k, env.submit = Except.ok ⟨some jid⟩ → jid ≠ "" →
      (∀ m, m < k → respNonTerminal (env.statusAt m) = true) →
      env.statusAt k = Except.error e → k * p ≤ t →
      (generate_speech text temp topP seed ap sp p t fr env fuel).fst =
        GSOutcome.failure ("Request error: " ++ e) ∧
      countPost (generate_speech text temp topP seed ap sp p t fr env fuel).snd = 1 ∧
      countGet (generate_speech text temp topP seed ap sp p t fr env fuel).snd =
        k + 1) := by
  constructor
  · intro e hsub
    match ap, hap with
    | none, _ =>
        unfold generate_speech
        rw [hsub]
    | some (.ok bs), _ =>
        unfold generate_speech
        rw [hsub]
    | some (.error e'), hap =>
        exact absurd rfl (hap e')
  · intro jid e k hsub hjid hpre herr hbound
    rw [generate_speech_run text temp topP seed ap sp p t fr env fuel jid hap hsub hjid]
    have hk : k ≤ k * p := Nat.le_mul_of_pos_right k hp
    have h := pollLoop_abort_on_request_error env jid sp p t e k fuel 0
      (fun m hm => by simpa using hpre m hm)
      (by simpa using herr) (by simpa using hbound) (by omega)
    refine ⟨h.1, ?_, ?_⟩
    · simp only [countPost]
      have := (pollLoop_no_cancel_no_post env jid sp p t fuel 0).2
      omega
    · simp only [countGet]
      omega

/-- Claim C9 (amended): whenever `generate_speech` returns a failure
pair, no audio write has completed — `Effect.writeFile` appears only on
the success path, after the payload is decoded — and the output file
can have been created/truncated in exactly one failing case: `open` on
`save_path` succeeded and `f.write` itself then raised, the run failing
with the matching `(False, "Unexpected error: ...")` pair. -/
theorem generate_speech_no_write_on_failure
    (text : String) (temp topP : ℚ) (seed : Option Int)
    (ap : Option (Except String (List ℕ))) (sp : Option String)
    (p t : ℕ) (fr : Bool) (env : ClientEnv) (fuel : ℕ) (msg : String)
    (hfail : (generate_speech text temp topP seed ap sp p t fr env fuel).fst =
      GSOutcome.failure msg) :
    (∀ pth bs, Effect.writeFile pth bs ∉
      (generate_speech text temp topP seed ap sp p t fr env fuel).snd) ∧
    (∀ pth, Effect.openTrunc pth ∈
        (generate_speech text temp topP seed ap sp p t fr env fuel).snd →
      ∃ e, env.writeOutcome = Except.error e ∧
        msg = "Unexpected error: " ++ e) := by
  constructor
  · intro pth bs hmem
    match hap : ap with
    | some (.error e) =>
        unfold generate_speech at hmem
        simp at hmem
    | none =>
        cases hsub : env.submit with
        | error e =>
            unfold generate_speech at hmem
            rw [hsub] at hmem
            simp at hmem
        | ok resp =>
            by_cases hid : strFalsy resp.id = true
            · unfold generate_speech at hmem
              rw [hsub] at hmem
              dsimp only at hmem
              rw [if_pos hid] at hmem
              simp at hmem
            · match hrid : resp.id with
              | none => rw [hrid] at hid; simp [strFalsy] at hid
              | some jid =>
                  rw [hrid] at hid
                  simp [strFalsy] at hid
                  have hsub' : env.submit = Except.ok ⟨some jid⟩ := by
                    rw [hsub, ← hrid]
                  have hrun := generate_speech_run text temp topP seed none sp p t fr
                    env fuel jid (by simp) hsub' hid
                  rw [hrun] at hmem hfail
                  simp only [List.mem_cons] at hmem
                  rcases hmem with h1 | h2
                  · cases h1
                  · have := pollLoop_write_success env jid sp p t fuel 0 pth bs h2
                    rw [hfail] at this
                    cases this
    | some (.ok bsfile) =>
        cases hsub : env.submit with
        | error e =>
            unfold generate_speech at hmem
            rw [hsub] at hmem
            simp at hmem
        | ok resp =>
            by_cases hid : strFalsy resp.id = true
            · unfold generate_speech at hmem
              rw [hsub] at hmem
              dsimp only at hmem
              rw [if_pos hid] at hmem
              simp at hmem
            · match hrid : resp.id with
              | none => rw [hrid] at hid; simp [strFalsy] at hid
              | some jid =>
                  rw [hrid] at hid
                  simp [strFalsy] at hid
                  have hsub' : env.submit = Except.ok ⟨some jid⟩ := by
                    rw [hsub, ← hrid]
                  have hrun := generate_speech_run text temp topP seed (some (.ok bsfile))
                    sp p t fr env fuel jid (by simp) hsub' hid
                  rw [hrun] at hmem hfail
                  simp only [List.mem_cons] at hmem
                  rcases hmem with h1 | h2
                  · cases h1
                  · have := pollLoop_write_success env jid sp p t fuel 0 pth bs h2
                    rw [hfail] at this
                    cases this
  · intro pth hmem
    match hap : ap with
    | some (.error e) =>
        unfold generate_speech at hmem
        simp at hmem
    | none =>
        cases hsub : env.submit with
        | error e =>
            unfold generate_speech at hmem
            rw [hsub] at hmem
            simp at hmem
        | ok resp =>
            by_cases hid : strFalsy resp.id = true
            · unfold generate_speech at hmem
              rw [hsub] at hmem
              dsimp only at hmem
              rw [if_pos hid] at hmem
              simp at hmem
            · match hrid : resp.id with
              | none => rw [hrid] at hid; simp [strFalsy] at hid
              | some jid =>
                  rw [hrid] at hid
                  simp [strFalsy] at hid
                  have hsub' : env.submit = Except.ok ⟨some jid⟩ := by
                    rw [hsub, ← hrid]
                  have hrun := generate_speech_run text temp topP seed none sp p t fr
                    env fuel jid (by simp) hsub' hid
                  rw [hrun] at hmem hfail
                  simp only [List.mem_cons] at hmem
                  rcases hmem with h1 | h2
                  · cases h1
                  · rcases pollLoop_openTrunc env jid sp p t fuel 0 pth h2 with
                      ⟨bs', hs⟩ | ⟨e, hw, hf⟩
                    · rw [hfail] at hs; cases hs
                    · rw [hfail] at hf
                      injection hf with h'
                      exact ⟨e, hw, h'⟩
    | some (.ok bsfile) =>
        cases hsub : env.submit with
        | error e =>
            unfold generate_speech at hmem
            rw [hsub] at hmem
            simp at hmem
        | ok resp =>
            by_cases hid : strFalsy resp.id = true
            · unfold generate_speech at hmem
              rw [hsub] at hmem
              dsimp only at hmem
              rw [if_pos hid] at hmem
              simp at hmem
            · match hrid : resp.id with
              | none => rw [hrid] at hid; simp [strFalsy] at hid
              | some jid =>
                  rw [hrid] at hid
                  simp [strFalsy] at hid
                  have hsub' : env.submit = Except.ok ⟨some jid⟩ := by
                    rw [hsub, ← hrid]
                  have hrun := generate_speech_run text temp topP seed (some (.ok bsfile))
                    sp p t fr env fuel jid (by simp) hsub' hid
                  rw [hrun] at hmem hfail
                  simp only [List.mem_cons] at hmem
                  rcases hmem with h1 | h2
                  · cases h1
                  · rcases pollLoop_openTrunc env jid sp p t fuel 0 pth h2 with
                      ⟨bs', hs⟩ | ⟨e, hw, hf⟩
                    · rw [hfail] at hs; cases hs
                    · rw [hfail] at hf
                      injection hf with h'
                      exact ⟨e, hw, h'⟩

def envWriteFailW : ClientEnv :=
  { submit := .ok ⟨some "job-1"⟩
    statusAt := fun _ =>
      .ok ⟨some "COMPLETED", some ⟨none, some (b64EncodeStr [1, 2, 3])⟩, none⟩
    openOutcome := .ok ()
    writeOutcome := .error "No space left on device" }

/-- Claim C9 (counterexample): a failure pair with the output file
modified.  The job completes, `open(save_path, "wb")` succeeds —
creating/truncating the file — and `f.write` raises; the generic
`except Exception` turns this into `(False, "Unexpected error: ...")`
while the trace records the file as created/truncated, refuting "if the
call returns a failure pair then no write to save_path has occurred
(the output file is neither created nor modified)". -/
theorem generate_speech_write_failure_modifies_file_cex :
    (generate_speech "x" 1 1 none none (some "out.wav") 2 300 false
      envWriteFailW 302).fst =
      GSOutcome.failure ("Unexpected error: " ++ "No space left on device") ∧
    Effect.openTrunc "out.wav" ∈
      (generate_speech "x" 1 1 none none (some "out.wav") 2 300 false
        envWriteFailW 302).snd := by
  constructor
  · decide
  · decide

/-! ### Handler: `load_model` / `handler` (src/serverless/handler.py)

The process-wide singleton `model` and its reloads are embedded as
explicit state: a loaded model is identified by a fresh tag drawn from
`nextTag`, so that "a freshly loaded model, not the previously cached
one" is a statement about tags.  `HEnv` supplies the outcome of the
external calls: `Dia.from_pretrained` (per tag), the two
`model.generate` attempts (the second is the eager-mode retry the code
makes when a `RuntimeError` mentions the missing C compiler), and the
WAV/base64 encoding step (`sf.write` + `b64encode`).  A propagated
Python exception is `Except.error`; the filesystem-heavy
`set_cache_dir` / `debug_volumes` admin branches are abstracted into
environment-supplied responses, which no claim depends on. -/

/-- A Python exception value: its class (only `RuntimeError` matters to
the handler's retry logic) and its message. -/
structure PyErr where
  isRuntimeError : Bool
  msg : String
  deriving DecidableEq

def strStartsWith : List Char → List Char → Bool
  | [], _ => true
  | _ :: _, [] => false
  | n :: ns, h :: hs => n = h && strStartsWith ns hs

def strContainsSeq (needle : List Char) : List Char → Bool
  | [] => strStartsWith needle []
  | h :: hs => strStartsWith needle (h :: hs) || strContainsSeq needle hs

/-- Python's `"Failed to find C compiler" in str(e)` substring test. -/
def strContainsSub (hay needle : String) : Bool :=
  strContainsSeq needle.toList hay.toList

def ccompilerMsg : String := "Failed to find C compiler"

/-- Handler input object (`event["input"]`); absent keys are `none` /
the Python defaults used by `.get`. -/
structure HandlerInput where
  command : Option String
  text : String
  audioPrompt : Option String
  seed : Option Int
  forceRefresh : Bool
  deriving DecidableEq

/-- The container's process-wide state: the cached model (by tag) and
the supply of fresh tags. -/
structure HandlerState where
  model : Option ℕ
  nextTag : ℕ
  deriving DecidableEq

/-- A value returned by the handler (always a JSON object in Python). -/
inductive HResponse where
  | errorResp (msg : String)
  | audioResp (audio : String) (format : String) (sampleRate : ℕ)
  | adminResp (status : String) (message : String)
  deriving DecidableEq

inductive HEffect where
  | loadModelCall (forceRefresh : Bool) (tag : ℕ)
  | generateCall (modelTag : ℕ) (text : String) (audioPrompt : Option (List ℕ))
  deriving DecidableEq

structure HEnv where
  loadOutcome : ℕ → Except String Unit
  genOutcome : Except PyErr (List ℕ)
  genRetryOutcome : Except PyErr (List ℕ)
  encodeOutcome : Except PyErr String
  setCacheDirResult : HResponse
  debugResult : Except String HResponse

/-- `load_model(force_refresh)`: reload when the singleton is absent or
a refresh is forced; `Dia.from_pretrained` failures propagate.  Returns
the model tag now cached. -/
def load_model (force : Bool) (env : HEnv) (s : HandlerState) :
    Except String (ℕ × HandlerState) × List HEffect :=
  if s.model = none ∨ force then
    match env.loadOutcome s.nextTag with
    | .error e => (.error e, [])
    | .ok _ =>
        (.ok (s.nextTag, { model := some s.nextTag, nextTag := s.nextTag + 1 }),
         [HEffect.loadModelCall force s.nextTag])
  else
    (.ok (s.model.getD 0, s), [])

/-- The generation attempt including the eager-mode retry the handler
makes when the first `model.generate` raises a `RuntimeError`
mentioning the missing C compiler. -/
def generateAttempts (env : HEnv) : Except PyErr (List ℕ) :=
  match env.genOutcome with
  | .ok w => .ok w
  | .error e =>
      if e.isRuntimeError && strContainsSub e.msg ccompilerMsg then env.genRetryOutcome
      else .error e

/-- Everything inside the handler's outer `try` around generation: the
generate call (with retry) and then the WAV/base64 encoding. -/
def generationPhase (env : HEnv) : Except PyErr String :=
  match generateAttempts env with
  | .error e => .error e
  | .ok _ => env.encodeOutcome

/-- Decoding of the (truthy) optional base64 audio prompt; `.error`
models the `base64.b64decode` exception the handler catches. -/
def audioPromptDecode (input : HandlerInput) : Except String (Option (List ℕ)) :=
  match input.audioPrompt with
  | some ap =>
      if ap ≠ "" then
        match b64DecodeStr ap with
        | none => Except.error "invalid base64"
        | some abs => Except.ok (some abs)
      else Except.ok none
  | none => Except.ok none

/-- The handler's normal inference path (after the admin-command
dispatch): lazy model load, text validation, optional forced reload,
audio-prompt decode, then the guarded generation phase. -/
def handlerNormal (input : HandlerInput) (env : HEnv) (s : HandlerState) :
    Except String (HResponse × HandlerState) × List HEffect :=
  match (if s.model = none then load_model false env s
         else (.ok (s.model.getD 0, s), [])) with
  | (.error e, tr1) => (.error e, tr1)
  | (.ok (tag1, s1), tr1) =>
      if input.text = "" then
        (.ok (.errorResp "No text provided for speech generation.", s1), tr1)
      else
        match (if input.forceRefresh then load_model true env s1
               else (.ok (tag1, s1), [])) with
        | (.error e, tr2) => (.error e, tr1 ++ tr2)
        | (.ok (tag2, s2), tr2) =>
            match audioPromptDecode input with
            | .error _ =>
                (.ok (.errorResp "Error decoding audio prompt: invalid base64", s2),
                 tr1 ++ tr2)
            | .ok apBytes =>
                let tr3 := [HEffect.generateCall tag2 input.text apBytes]
                match generationPhase env with
                | .error e =>
                    (.ok (.errorResp ("Error generating speech: " ++ e.msg), s2),
                     tr1 ++ tr2 ++ tr3)
                | .ok audioB64 =>
                    (.ok (.audioResp audioB64 "wav" 44100, s2), tr1 ++ tr2 ++ tr3)

/-- The serverless `handler`.  `Except.error` models an exception
propagating out of the handler uncaught. -/
def handler (input : HandlerInput) (env : HEnv) (s : HandlerState) :
    Except String (HResponse × HandlerState) × List HEffect :=
  if input.command = some "set_cache_dir" then
    (.ok (env.setCacheDirResult, s), [])
  else if input.command = some "debug_volumes" then
    match env.debugResult with
    | .error e => (.error e, [])
    | .ok r => (.ok (r, s), [])
  else if input.command = some "refresh_model" then
    match load_model true env s with
    | (.error e, tr) => (.error e, tr)
    | (.ok (_, s1), tr) =>
        (.ok (.adminResp "success" "Model refreshed from Hugging Face Hub", s1), tr)
  else
    handlerNormal input env s

/-- Without an admin command, the handler takes the normal inference
path. -/
theorem handler_eq_normal (input : HandlerInput) (env : HEnv) (s : HandlerState)
    (hc : input.command = none) :
    handler input env s = handlerNormal input env s := by
  unfold handler
  rw [hc]
  rfl

/-! ### Claim theorems: handler -/

/-- Claim C6: every inference request with `force_refresh=true`
(non-empty text, no admin command, whatever the audio prompt), given a
model cached on entry, makes the handler discard it and reload before
the generation step: the reload of a fresh model (tag `s.nextTag`,
distinct from the cached tag) is in the trace and is what ends up
cached in the exit state; every generate call of the run operates on
that freshly loaded model; and whenever the audio prompt decodes, the
generate call on the fresh model is actually made. -/
theorem handler_force_refresh_reloads_before_generate
    (input : HandlerInput) (env : HEnv) (s : HandlerState) (t : ℕ)
    (hc : input.command = none) (ht : ¬ input.text = "")
    (hfr : input.forceRefresh = true)
    (hload : env.loadOutcome s.nextTag = Except.ok ())
    (hm : s.model = some t) (hwf : t < s.nextTag) :
    ∃ r s', (handler input env s).fst = Except.ok (r, s') ∧
      s'.model = some s.nextTag ∧
      HEffect.loadModelCall true s.nextTag ∈ (handler input env s).snd ∧
      (∀ tag txt apb,
        HEffect.generateCall tag txt apb ∈ (handler input env s).snd →
          tag = s.nextTag) ∧
      (∀ apb, audioPromptDecode input = Except.ok apb →
        HEffect.generateCall s.nextTag input.text apb ∈ (handler input env s).snd) ∧
      t ≠ s.nextTag := by
  rw [handler_eq_normal input env s hc]
  unfold handlerNormal
  rw [hm]
  rw [if_neg (by simp)]
  dsimp only [Option.getD]
  rw [if_neg ht, hfr]
  rw [if_pos rfl]
  unfold load_model
  rw [if_pos (Or.inr rfl), hload]
  dsimp only
  cases hdec : audioPromptDecode input with
  | error d =>
      refine ⟨_, _, rfl, rfl, by simp, ?_, ?_, by omega⟩
      · intro tag txt apb hmem
        simp at hmem
      · intro apb hdec'
        exact Except.noConfusion hdec'
  | ok apb =>
      cases hgen : generationPhase env with
      | error e =>
          refine ⟨_, _, rfl, rfl, by simp, ?_, ?_, by omega⟩
          · intro tag txt apb' hmem
            simp at hmem
            exact hmem.1
          · intro apb' hdec'
            injection hdec' with h'
            rw [← h']
            simp
      | ok audioB64 =>
          refine ⟨_, _, rfl, rfl, by simp, ?_, ?_, by omega⟩
          · intro tag txt apb' hmem
            simp at hmem
            exact hmem.1
          · intro apb' hdec'
            injection hdec' with h'
            rw [← h']
            simp

/-- Claim C7: on the normal inference path (no admin command, non-empty
text, model loads succeed, readable audio prompt), the handler never
lets an exception of the generation phase escape: it returns `ok`, and
when the generation phase failed the returned value is the structured
error response carrying the exception message. -/
theorem handler_catches_generation_exceptions
    (input : HandlerInput) (env : HEnv) (s : HandlerState)
    (hc : input.command = none) (ht : ¬ input.text = "")
    (hload : ∀ n, env.loadOutcome n = Except.ok ())
    (hap : ∀ apS, input.audioPrompt = some apS → apS ≠ "" → b64DecodeStr apS ≠ none) :
    ∃ r s', (handler input env s).fst = Except.ok (r, s') ∧
      ∀ e, generationPhase env = Except.error e →
        r = HResponse.errorResp ("Error generating speech: " ++ e.msg) := by
  rw [handler_eq_normal input env s hc]
  unfold handlerNormal
  have hdec : ∃ apBytes, audioPromptDecode input = Except.ok apBytes := by
    unfold audioPromptDecode
    cases hap' : input.audioPrompt with
    | none => exact ⟨none, rfl⟩
    | some apS =>
        dsimp only
        by_cases he : apS = ""
        · subst he
          rw [if_neg (by simp)]
          exact ⟨none, rfl⟩
        · rw [if_pos he]
          cases hb : b64DecodeStr apS with
          | none => exact absurd hb (hap apS hap' he)
          | some abs => exact ⟨some abs, rfl⟩
  obtain ⟨apBytes, hdec⟩ := hdec
  cases hm : s.model with
  | none =>
      rw [if_pos rfl]
      unfold load_model
      rw [if_pos (Or.inl hm), hload s.nextTag]
      dsimp only
      rw [if_neg ht]
      cases hfr : input.forceRefresh with
      | false =>
          rw [if_neg (by simp)]
          dsimp only
          rw [hdec]
          cases hgen : generationPhase env with
          | error e =>
              exact ⟨_, _, rfl, fun e' he' => by injection he' with h'; rw [h']⟩
          | ok audioB64 =>
              exact ⟨_, _, rfl, fun e' he' => Except.noConfusion he'⟩
      | true =>
          rw [if_pos rfl]
          rw [if_pos (Or.inr rfl), hload (s.nextTag + 1)]
          dsimp only
          rw [hdec]
          cases hgen : generationPhase env with
          | error e =>
              exact ⟨_, _, rfl, fun e' he' => by injection he' with h'; rw [h']⟩
          | ok audioB64 =>
              exact ⟨_, _, rfl, fun e' he' => Except.noConfusion he'⟩
  | some t =>
      rw [if_neg (by simp)]
      dsimp only
      rw [if_neg ht]
      cases hfr : input.forceRefresh with
      | false =>
          rw [if_neg (by simp)]
          dsimp only
          rw [hdec]
          cases hgen : generationPhase env with
          | error e =>
              exact ⟨_, _, rfl, fun e' he' => by injection he' with h'; rw [h']⟩
          | ok audioB64 =>
              exact ⟨_, _, rfl, fun e' he' => Except.noConfusion he'⟩
      | true =>
          rw [if_pos rfl]
          unfold load_model
          rw [if_pos (Or.inr rfl), hload s.nextTag]
          dsimp only
          rw [hdec]
          cases hgen : generationPhase env with
          | error e =>
              exact ⟨_, _, rfl, fun e' he' => by injection he' with h'; rw [h']⟩
          | ok audioB64 =>
              exact ⟨_, _, rfl, fun e' he' => Except.noConfusion he'⟩

/-- Claim C10: with no cached model and no admin command, an exception
raised by the initial model load propagates out of the handler uncaught
(the result is the exception, not a structured error response): the
catch-all protection covers only the generation phase. -/
theorem handler_initial_load_exception_propagates
    (input : HandlerInput) (env : HEnv) (s : HandlerState) (e : String)
    (hc : input.command = none) (ht : ¬ input.text = "")
    (hm : s.model = none)
    (hload : env.loadOutcome s.nextTag = Except.error e) :
    handler input env s = (Except.error e, []) := by
  rw [handler_eq_normal input env s hc]
  unfold handlerNormal
  rw [if_pos hm]
  unfold load_model
  rw [if_pos (Or.inl hm), hload]

/-! ### Claim theorems: base64 round trip and text validation -/

/-- Claim C5: decoding — as the handler does for the `audio_prompt`
field — the base64 string the client computes from a reference-audio
file containing bytes `bs` yields exactly `bs`. -/
theorem client_encode_handler_decode_roundtrip (bs : List ℕ)
    (h : ∀ x ∈ bs, x < 256) :
    b64DecodeStr (b64EncodeStr bs) = some bs := by
  unfold b64DecodeStr b64EncodeStr
  exact b64_roundtrip_chars bs h

def envSubmitErrW : ClientEnv :=
  { submit := .error "connection refused", statusAt := fun _ => .error "unused"
    openOutcome := .ok (), writeOutcome := .ok () }

/-- Claim C2 is false on the code: the client does not validate the
text.  Counterexample: a run of `generate_speech` with `text = ""`
whose trace contains the POST to `/run` carrying the empty text. -/
theorem generate_speech_empty_text_posts_cex :
    Effect.postRun (gsPayload "" 1 1 none false none) ∈
      (generate_speech "" 1 1 none none none 2 300 false envSubmitErrW 302).snd := by
  decide

/-- Claim C2 (amended): `generate_speech` performs no non-empty-text
validation — the POST to `/run` is issued even for an empty text
(whenever the reference audio is readable, whatever the submit
outcome); the non-empty check is instead performed remotely by the
handler, which answers an empty text with the structured error
response `No text provided for speech generation.` (after its lazy
model load). -/
theorem empty_text_submitted_and_rejected_by_handler
    (temp topP : ℚ) (seed : Option Int) (ap : Option (Except String (List ℕ)))
    (sp : Option String) (p t : ℕ) (fr : Bool) (env : ClientEnv) (fuel : ℕ)
    (input : HandlerInput) (henv : HEnv) (hs : HandlerState)
    (hap : ∀ e, ap ≠ some (Except.error e))
    (hc : input.command = none) (htext : input.text = "")
    (hload : ∀ n, henv.loadOutcome n = Except.ok ()) :
    Effect.postRun (gsPayload "" temp topP seed fr ap) ∈
      (generate_speech "" temp topP seed ap sp p t fr env fuel).snd ∧
    ∃ s', (handler input henv hs).fst =
      Except.ok (HResponse.errorResp "No text provided for speech generation.", s') := by
  constructor
  · match ap, hap with
    | some (.error e), hap => exact absurd rfl (hap e)
    | none, _ =>
        unfold generate_speech
        dsimp only
        cases hsub : env.submit with
        | error e => simp
        | ok resp =>
            dsimp only
            by_cases hid : strFalsy resp.id = true
            · rw [if_pos hid]; simp
            · rw [if_neg hid]; simp
    | some (.ok bs), _ =>
        unfold generate_speech
        dsimp only
        cases hsub : env.submit with
        | error e => simp
        | ok resp =>
            dsimp only
            by_cases hid : strFalsy resp.id = true
            · rw [if_pos hid]; simp
            · rw [if_neg hid]; simp
  · rw [handler_eq_normal input henv hs hc]
    unfold handlerNormal
    cases hm : hs.model with
    | none =>
        rw [if_pos rfl]
        unfold load_model
        rw [if_pos (Or.inl hm), hload hs.nextTag]
        dsimp only
        rw [if_pos htext]
        exact ⟨_, rfl⟩
    | some t' =>
        rw [if_neg (by simp)]
        dsimp only
        rw [if_pos htext]
        exact ⟨_, rfl⟩

/-! ### Concrete witnesses -/

def envNonTerminalW : ClientEnv :=
  { submit := .ok ⟨some "job-1"⟩
    statusAt := fun _ => .ok ⟨some "IN_PROGRESS", none, none⟩
    openOutcome := .ok (), writeOutcome := .ok () }

def envNoIdW : ClientEnv :=
  { submit := .ok ⟨none⟩, statusAt := fun _ => .error "unused"
    openOutcome := .ok (), writeOutcome := .ok () }

def envPollErrW : ClientEnv :=
  { submit := .ok ⟨some "job-1"⟩
    statusAt := fun n =>
      if n < 3 then .ok ⟨some "IN_PROGRESS", none, none⟩ else .error "reset"
    openOutcome := .ok (), writeOutcome := .ok () }

def envFailedW : ClientEnv :=
  { submit := .ok ⟨some "job-1"⟩
    statusAt := fun _ => .ok ⟨some "FAILED", none, some "OOM"⟩
    openOutcome := .ok (), writeOutcome := .ok () }

def henvW : HEnv :=
  { loadOutcome := fun _ => .ok ()
    genOutcome := .error ⟨false, "CUDA out of memory"⟩
    genRetryOutcome := .error ⟨false, "CUDA out of memory"⟩
    encodeOutcome := .ok "AAAA"
    setCacheDirResult := .adminResp "success" ""
    debugResult := .ok (.adminResp "success" "") }

def henvLoadFailW : HEnv :=
  { loadOutcome := fun _ => .error "Gateway Timeout 504"
    genOutcome := .error ⟨false, "unused"⟩
    genRetryOutcome := .error ⟨false, "unused"⟩
    encodeOutcome := .ok "AAAA"
    setCacheDirResult := .adminResp "success" ""
    debugResult := .ok (.adminResp "success" "") }

theorem generate_speech_poll_terminates_and_timeout_bound_witness :
    0 < 2 ∧ 300 + 2 ≤ 302 ∧
    (generate_speech "x" 1 1 none none none 2 300 false envNonTerminalW 302).fst ≠
      GSOutcome.diverge ∧
    (generate_speech "x" 1 1 none none none 2 300 false envNonTerminalW 302).fst =
      GSOutcome.failure ("Job timed out after " ++ toString 300 ++ " seconds") ∧
    sleepSum (generate_speech "x" 1 1 none none none 2 300 false
      envNonTerminalW 302).snd ≤ 300 + 2 := by
  have h := generate_speech_poll_terminates_and_timeout_bound "x" 1 1 none none none
    2 300 false envNonTerminalW 302 "job-1" (by decide) (by decide) (by simp) rfl
    (by decide)
  have h2 := h.2 (fun m => rfl)
  exact ⟨by decide, by decide, h.1, h2.1, h2.2⟩

theorem empty_text_submitted_and_rejected_by_handler_witness :
    Effect.postRun (gsPayload "" 1 1 none false none) ∈
      (generate_speech "" 1 1 none none none 2 300 false envNonTerminalW 302).snd ∧
    ∃ s', (handler ⟨none, "", none, none, false⟩ henvW ⟨some 5, 9⟩).fst =
      Except.ok (HResponse.errorResp "No text provided for speech generation.", s') :=
  empty_text_submitted_and_rejected_by_handler 1 1 none none none 2 300 false
    envNonTerminalW 302 ⟨none, "", none, none, false⟩ henvW ⟨some 5, 9⟩
    (by simp) rfl rfl (fun n => rfl)

theorem generate_speech_no_job_id_fails_without_polling_witness :
    strFalsy (SubmitResp.mk none).id = true ∧
    ∃ detail, generate_speech "x" 1 1 none none none 2 300 false envNoIdW 302 =
      (GSOutcome.failure ("Failed to submit job: " ++ detail),
       [Effect.postRun (gsPayload "x" 1 1 none false none)]) :=
  ⟨by decide,
   generate_speech_no_job_id_fails_without_polling "x" 1 1 none none none 2 300
     false envNoIdW 302 ⟨none⟩ (by simp) rfl (by decide)⟩

theorem generate_speech_timeout_no_cancellation_witness :
    0 < 2 ∧ 300 + 2 ≤ 302 ∧
    (∀ j, Effect.cancelJob j ∉
      (generate_speech "x" 1 1 none none none 2 300 false envNonTerminalW 302).snd) ∧
    (generate_speech "x" 1 1 none none none 2 300 false envNonTerminalW 302).fst =
      GSOutcome.failure ("Job timed out after " ++ toString 300 ++ " seconds") ∧
    countGet (generate_speech "x" 1 1 none none none 2 300 false
      envNonTerminalW 302).snd * 2 ≤ 300 + 2 := by
  have h := generate_speech_timeout_no_cancellation "x" 1 1 none none none 2 300
    false envNonTerminalW 302 "job-1" (by decide) (by decide) (by simp) rfl
    (by decide)
  have h2 := h.2 (fun m => rfl)
  exact ⟨by decide, by decide, h.1, h2.1, h2.2⟩

theorem client_encode_handler_decode_roundtrip_witness :
    (∀ x ∈ [0, 255, 7, 128], x < 256) ∧
    b64DecodeStr (b64EncodeStr [0, 255, 7, 128]) = some [0, 255, 7, 128] :=
  ⟨by decide, client_encode_handler_decode_roundtrip [0, 255, 7, 128] (by decide)⟩

theorem handler_force_refresh_reloads_before_generate_witness :
    5 < 9 ∧
    ∃ r s',
      (handler ⟨none, "hi", some (b64EncodeStr [7, 8]), none, true⟩ henvW
        ⟨some 5, 9⟩).fst = Except.ok (r, s') ∧
      s'.model = some 9 ∧
      HEffect.loadModelCall true 9 ∈
        (handler ⟨none, "hi", some (b64EncodeStr [7, 8]), none, true⟩ henvW
          ⟨some 5, 9⟩).snd ∧
      (∀ tag txt apb,
        HEffect.generateCall tag txt apb ∈
          (handler ⟨none, "hi", some (b64EncodeStr [7, 8]), none, true⟩ henvW
            ⟨some 5, 9⟩).snd → tag = 9) ∧
      (∀ apb, audioPromptDecode ⟨none, "hi", some (b64EncodeStr [7, 8]), none, true⟩ =
          Except.ok apb →
        HEffect.generateCall 9 "hi" apb ∈
          (handler ⟨none, "hi", some (b64EncodeStr [7, 8]), none, true⟩ henvW
            ⟨some 5, 9⟩).snd) ∧
      5 ≠ 9 :=
  ⟨by decide,
   handler_force_refresh_reloads_before_generate
     ⟨none, "hi", some (b64EncodeStr [7, 8]), none, true⟩ henvW ⟨some 5, 9⟩ 5
     rfl (by decide) rfl rfl rfl (by decide)⟩

theorem handler_catches_generation_exceptions_witness :
    ∃ r s', (handler ⟨none, "hi", none, none, false⟩ henvW ⟨some 5, 9⟩).fst =
        Except.ok (r, s') ∧
      ∀ e, generationPhase henvW = Except.error e →
        r = HResponse.errorResp ("Error generating speech: " ++ e.msg) :=
  handler_catches_generation_exceptions ⟨none, "hi", none, none, false⟩ henvW
    ⟨some 5, 9⟩ rfl (by decide) (fun n => rfl)
    (fun apS h => absurd h (by simp))

theorem generate_speech_request_exception_aborts_witness :
    0 < 2 ∧ 300 + 2 ≤ 302 ∧
    (generate_speech "x" 1 1 none none none 2 300 false envPollErrW 302).fst =
      GSOutcome.failure ("Request error: " ++ "reset") ∧
    countPost (generate_speech "x" 1 1 none none none 2 300 false
      envPollErrW 302).snd = 1 ∧
    countGet (generate_speech "x" 1 1 none none none 2 300 false
      envPollErrW 302).snd = 3 + 1 := by
  have h := generate_speech_request_exception_aborts "x" 1 1 none none none 2 300
    false envPollErrW 302 (by decide) (by decide) (by simp)
  have h2 := h.2 "job-1" "reset" 3 rfl (by decide)
    (fun m hm => by interval_cases m <;> decide) (by decide) (by decide)
  exact ⟨by decide, by decide, h2.1, h2.2.1, h2.2.2⟩

theorem generate_speech_no_write_on_failure_witness :
    (generate_speech "x" 1 1 none none (some "out.wav") 2 300 false
      envFailedW 302).fst = GSOutcome.failure ("Job failed: " ++ "OOM") ∧
    Effect.writeFile "out.wav" [0] ∉
      (generate_speech "x" 1 1 none none (some "out.wav") 2 300 false
        envFailedW 302).snd ∧
    (Effect.openTrunc "out.wav" ∈
        (generate_speech "x" 1 1 none none (some "out.wav") 2 300 false
          envFailedW 302).snd →
      ∃ e, envFailedW.writeOutcome = Except.error e ∧
        "Job failed: " ++ "OOM" = "Unexpected error: " ++ e) := by
  have h := generate_speech_no_write_on_failure "x" 1 1 none none (some "out.wav")
    2 300 false envFailedW 302 ("Job failed: " ++ "OOM") (by decide)
  exact ⟨by decide, h.1 "out.wav" [0], h.2 "out.wav"⟩

theorem handler_initial_load_exception_propagates_witness :
    handler ⟨none, "hi", none, none, false⟩ henvLoadFailW ⟨none, 9⟩ =
      (Except.error "Gateway Timeout 504", []) :=
  handler_initial_load_exception_propagates ⟨none, "hi", none, none, false⟩
    henvLoadFailW ⟨none, 9⟩ "Gateway Timeout 504" rfl (by decide) rfl rfl
